import Mathlib

/-!
Shallow embedding of the magpylib field kernels
`magpylib/_src/fields/field_BH_circle.py` (`current_circle_field`) and
`magpylib/_src/fields/field_BH_tetrahedron.py` (`check_chirality`,
`point_inside`, `BHJM_magnet_tetrahedron`).

Conventions of the embedding:
* float64 arrays are embedded as real numbers; the numpy batch dimension is
  embedded as a `List` of per-instance records (all kernel operations are
  elementwise over the batch, masks included).
* helpers that live elsewhere in the repository (`check_field_input`,
  `cart_to_cyl_coordinates`, `cyl_field_to_cart`, `MU0`) are modelled from the
  spec, as marked on each; the two numerical collaborators whose code is not
  available (`cel_iter`, `BHJM_triangle`) are taken as explicit function
  parameters of the kernels, so every theorem quantifies over them.
* Python exceptions are embedded with `Except String`.
-/

namespace Magpylib

/-- A 3-vector of reals, one row of an (n,3) float64 array.
Componentwise `+`, `-`, `0` come from the product instances. -/
abbrev Vec3 : Type := ℝ × ℝ × ℝ

/-- Componentwise division of a 3-vector by a scalar (numpy `v / c`). -/
noncomputable def vdiv (v : Vec3) (c : ℝ) : Vec3 :=
  (v.1 / c, v.2.1 / c, v.2.2 / c)

/-- Modelled from the spec: `MU0` is imported from `magpylib._src.utility`
(not under src/); the spec fixes mu0 = 4*pi*1e-7 T m/A exactly. -/
noncomputable def MU0 : ℝ := 4 * Real.pi * 1e-7

/-- The valid field-type selectors, spec section 4.5. -/
def validFields : List String := ["B", "H", "M", "J"]

/-- Error text of the shared validation gate (descriptive: names the
offending value and the valid set, as the spec requires). -/
def check_error_msg (field : String) : String :=
  "field must be one of (B, H, M, J), got " ++ field

/-- Modelled from the spec: `check_field_input` (module
`magpylib._src.input_checks`, not under src/) checks the field-type selector
is one of B, H, M, J and raises a descriptive value error otherwise. -/
def check_field_input (field : String) : Except String Unit :=
  if field ∈ validFields then Except.ok ()
  else Except.error (check_error_msg field)

/-- Leading-block test on char lists; `charsContain` below builds the Python
substring test from it. -/
def charsLead : List Char → List Char → Bool
  | [], _ => true
  | _ :: _, [] => false
  | a :: as, b :: bs => a = b && charsLead as bs

/-- Contiguous-substring test on char lists. -/
def charsContain (needle : List Char) : List Char → Bool
  | [] => charsLead needle []
  | b :: bs => charsLead needle (b :: bs) || charsContain needle bs

/-- Python `a in b` on strings: `a` is a contiguous substring of `b`.
Embeds the source test `field in "MJ"`. -/
def pyInStr (a b : String) : Bool := charsContain a.toList b.toList

/-- Elementwise signature of `cel_iter` (module
`magpylib._src.fields.special_cel`, not under src/): the source calls
`cel_iter(q, p, ones, cc, ss, p, q)` elementwise over the batch.  The spec
describes it as a deterministic elementwise evaluator, so the kernels below
take it as an explicit function parameter. -/
abbrev CelIter : Type := ℝ → ℝ → ℝ → ℝ → ℝ → ℝ → ℝ → ℝ

/-- Cylindrical radius of an observer, `r` of `cart_to_cyl_coordinates`. -/
noncomputable def cylr (v : Vec3) : ℝ := Real.sqrt (v.1 ^ 2 + v.2.1 ^ 2)

/-- Modelled from the spec: azimuth of `cart_to_cyl_coordinates` (module
`magpylib._src.utility`, not under src/), numpy `arctan2(y, x)`; embedded by
`Complex.arg` which shares its range and its `arctan2(0,0) = 0` convention. -/
noncomputable def atan2 (y x : ℝ) : ℝ := Complex.arg (Complex.mk x y)

/-- Modelled from the spec: `cyl_field_to_cart` (module
`magpylib._src.utility`, not under src/) rotates the radial field component
by the azimuth into Cartesian (x, y) components. -/
noncomputable def cyl_field_to_cart (phi Br : ℝ) : ℝ × ℝ :=
  (Br * Real.cos phi, Br * Real.sin phi)

/-- On-axis closed form of the circle kernel (source line
`0.6283185307179587 * r0**2 / (z**2 + r0**2)**(3/2)`).  The premultiplied
float constant is embedded exactly as the decimal it denotes,
6283185307179587/10^16; note it lies one ulp ABOVE the double nearest
mu0/2/1e-6 = pi/5 (which rounds to 0.6283185307179586), so the on-axis
field agrees with mu0/2*I*r0^2/(z^2+r0^2)^(3/2) only to one ulp, not
exactly. -/
noncomputable def circle_Bz_onaxis (r0 z : ℝ) : ℝ :=
  0.6283185307179587 * r0 ^ 2 / (z ^ 2 + r0 ^ 2) ^ ((3 : ℝ) / 2)

/-- General-case radial component of the circle kernel (the `mask5` branch
of the source, `cel*` part), for one instance with loop radius `r0` and
observer at cylindrical `(r, z)`. -/
noncomputable def circle_Br_gen (cel : CelIter) (r0 r z : ℝ) : ℝ :=
  let rr := r / r0
  let zz := z / r0
  let z2 := zz ^ 2
  let x0 := z2 + (rr + 1) ^ 2
  let k2 := 4 * rr / x0
  let q2 := (z2 + (rr - 1) ^ 2) / x0
  let k := Real.sqrt k2
  let q := Real.sqrt q2
  let p := 1 + q
  let pf := k / Real.sqrt rr / q2 / 20 / r0
  pf * zz / rr * cel q p 1 (k2 * k2) (2 * (k2 * k2) * q / p) p q

/-- General-case axial component of the circle kernel (the `mask5` branch
of the source, `cel**` part). -/
noncomputable def circle_Bz_gen (cel : CelIter) (r0 r z : ℝ) : ℝ :=
  let rr := r / r0
  let zz := z / r0
  let z2 := zz ^ 2
  let x0 := z2 + (rr + 1) ^ 2
  let k2 := 4 * rr / x0
  let q2 := (z2 + (rr - 1) ^ 2) / x0
  let k := Real.sqrt k2
  let q := Real.sqrt q2
  let p := 1 + q
  let pf := k / Real.sqrt rr / q2 / 20 / r0;
  -pf * cel q p 1 (k2 * (k2 - (q2 + 1) / rr)) (2 * k2 * q * (k2 / p - p / rr)) p q

/-- Source special-case mask 1: loop radius is 0. -/
def mask1 (r0 : ℝ) : Prop := r0 = 0

/-- Source special-case mask 2: observer at the loop-circle singularity. -/
def mask2 (r0 r z : ℝ) : Prop := |r - r0| < 1e-15 * r0 ∧ z = 0

/-- Source special-case mask 3: observer on the axis. -/
def mask3 (r : ℝ) : Prop := r = 0

/-- Source general-case mask 5: none of the special cases. -/
def mask5 (r0 r z : ℝ) : Prop := ¬(mask1 r0 ∨ mask2 r0 r z ∨ mask3 r)

open Classical in
/-- Radial accumulator `Br_tot` of the source: zero-initialised, written only
on the `mask5` entries. -/
noncomputable def circle_Br_tot (cel : CelIter) (r0 r z : ℝ) : ℝ :=
  if mask5 r0 r z then circle_Br_gen cel r0 r z else 0

open Classical in
/-- Axial accumulator `Bz_tot` of the source: zero-initialised, written on
the `mask4 = mask3 and not mask1` entries and on the (disjoint) `mask5`
entries, so the write order of the source does not matter. -/
noncomputable def circle_Bz_tot (cel : CelIter) (r0 r z : ℝ) : ℝ :=
  if mask3 r ∧ ¬mask1 r0 then circle_Bz_onaxis r0 z
  else if mask5 r0 r z then circle_Bz_gen cel r0 r z
  else 0

open Classical in
/-- Embedding of `current_circle_field` (field_BH_circle.py, one batch
instance): B/H field of a circular line-current loop in the z=0 plane,
centred at the origin.  `cel` is the `cel_iter` collaborator. -/
noncomputable def current_circle_field (cel : CelIter) (field : String)
    (observer : Vec3) (diameter : ℝ) (current : ℝ) : Except String Vec3 :=
  match check_field_input field with
  | Except.error e => Except.error e
  | Except.ok _ =>
    if pyInStr field "MJ" then Except.ok ((0, 0, 0) : Vec3)
    else
      let r := cylr observer
      let phi := atan2 observer.2.1 observer.1
      let z := observer.2.2
      let r0 := |diameter / 2|
      let Br := circle_Br_tot cel r0 r z
      let Bz := circle_Bz_tot cel r0 r z
      let Bxy := cyl_field_to_cart phi Br
      let Bcart : Vec3 :=
        (Bxy.1 * current * 1e-6, Bxy.2 * current * 1e-6, Bz * current * 1e-6)
      if field = "B" then Except.ok Bcart
      else Except.ok (vdiv Bcart MU0)

/-- A quadruple of tetrahedron vertices, one row of an (n,4,3) array. -/
abbrev Tet : Type := Vec3 × Vec3 × Vec3 × Vec3

/-- A triple of triangle vertices. -/
abbrev Triangle : Type := Vec3 × Vec3 × Vec3

/-- Elementwise signature of the `BHJM_triangle` collaborator (module
`magpylib._src.fields.field_BH_triangle`, not under src/): field type,
observer, triangle vertices, polarization to field vector.  The tetrahedron
kernel below takes it as an explicit function parameter. -/
abbrev TriKernel : Type := String → Vec3 → Triangle → Vec3 → Vec3

/-- Determinant of the 3x3 matrix whose COLUMNS are `a`, `b`, `c`
(first-row cofactor expansion); embeds `np.linalg.det` on the edge-vector
matrices built by the source. -/
def det3 (a b c : Vec3) : ℝ :=
  a.1 * (b.2.1 * c.2.2 - c.2.1 * b.2.2)
    - b.1 * (a.2.1 * c.2.2 - c.2.1 * a.2.2)
    + c.1 * (a.2.1 * b.2.2 - b.2.1 * a.2.2)

/-- Signed-volume determinant of a tetrahedron: determinant of the three
edge vectors from vertex 0 (`dets` of `check_chirality`). -/
def tetDet (t : Tet) : ℝ :=
  det3 (t.2.1 - t.1) (t.2.2.1 - t.1) (t.2.2.2 - t.1)

/-- Swap of vertices 2 and 3 of a tetrahedron
(`points[dets_neg, 2:, :] = points[dets_neg, 3:1:-1, :]`). -/
def swap23 (t : Tet) : Tet := (t.1, t.2.1, t.2.2.2, t.2.2.1)

open Classical in
/-- Embedding of `check_chirality` (field_BH_tetrahedron.py, one batch
instance): where the signed volume is negative, swap vertices 2 and 3 so the
quadruple is right-handed. -/
noncomputable def check_chirality (t : Tet) : Tet :=
  if tetDet t < 0 then swap23 t else t

/-- Embedding of the barycentric solve of `point_inside`: the source inverts
the 3x3 matrix whose columns are the edge vectors from vertex 0
(`np.linalg.inv`) and applies it to `point - vertices[:,0]`; over the reals
this is the Cramer rule.  (`np.linalg.inv` raises on an exactly singular
matrix; the embedding divides by the zero determinant instead, and every
theorem whose claim needs well-defined barycentric coordinates assumes
`tetDet t ≠ 0`.) -/
noncomputable def newp (obs : Vec3) (t : Tet) : Vec3 :=
  let e1 := t.2.1 - t.1
  let e2 := t.2.2.1 - t.1
  let e3 := t.2.2.2 - t.1
  let d := det3 e1 e2 e3
  let rhs := obs - t.1
  (det3 rhs e2 e3 / d, det3 e1 rhs e3 / d, det3 e1 e2 rhs / d)

open Classical in
/-- Embedding of `point_inside` (field_BH_tetrahedron.py, one batch
instance): under the `inside`/`outside` policies return the constant; under
any other policy string solve for the barycentric coordinates and test that
all lie in [0,1] with sum at most 1. -/
noncomputable def point_inside (obs : Vec3) (vertices : Tet) (in_out : String) :
    Bool :=
  if in_out = "inside" then true
  else if in_out = "outside" then false
  else
    let b := newp obs vertices
    if 0 ≤ b.1 ∧ 0 ≤ b.2.1 ∧ 0 ≤ b.2.2 ∧
        b.1 ≤ 1 ∧ b.2.1 ≤ 1 ∧ b.2.2 ≤ 1 ∧
        b.1 + b.2.1 + b.2.2 ≤ 1 then true
    else false

/-- One instance of the co-indexed (observers, vertices, polarization)
batch of the tetrahedron kernel. -/
structure TetInstance : Type where
  obs : Vec3
  vert : Tet
  pol : Vec3

/-- The four decomposed face triangles of the tetrahedron kernel, vertex
index triples (0,2,1), (0,1,3), (1,2,3), (0,3,2), summed through the
triangle kernel (`tri_field[:n] + ... + tri_field[3*n:]`). -/
def tetTriSum (tri : TriKernel) (field : String) (obs : Vec3) (t : Tet)
    (pol : Vec3) : Vec3 :=
  tri field obs (t.1, t.2.2.1, t.2.1) pol
    + tri field obs (t.1, t.2.1, t.2.2.2) pol
    + tri field obs (t.2.1, t.2.2.1, t.2.2.2) pol
    + tri field obs (t.1, t.2.2.2, t.2.2.1) pol

open Classical in
/-- Per-instance body of `BHJM_magnet_tetrahedron`, for the four valid field
types: J masks the polarization by the inside test; M is the same divided by
MU0; B/H normalize chirality and sum the four face triangles, B adding the
polarization back on inside observers (inside test on the normalized
vertices, which the source has rebound by then). -/
noncomputable def BHJM_tet1 (tri : TriKernel) (field : String)
    (in_out : String) (i : TetInstance) : Vec3 :=
  if field = "J" then
    (if point_inside i.obs i.vert in_out then i.pol else (0 : Vec3))
  else if field = "M" then
    vdiv (if point_inside i.obs i.vert in_out then i.pol else (0 : Vec3)) MU0
  else
    let v := check_chirality i.vert
    let s := tetTriSum tri field i.obs v i.pol
    if field = "B" ∧ point_inside i.obs v in_out then s + i.pol else s

/-- Embedding of `BHJM_magnet_tetrahedron` (field_BH_tetrahedron.py):
validate the field selector, then map the per-instance body over the batch;
the trailing branch embeds the final unreachable raise of the source. -/
noncomputable def BHJM_magnet_tetrahedron (tri : TriKernel) (field : String)
    (inputs : List TetInstance) (in_out : String) :
    Except String (List Vec3) :=
  match check_field_input field with
  | Except.error e => Except.error e
  | Except.ok _ =>
    if field = "J" ∨ field = "M" ∨ field = "H" ∨ field = "B" then
      Except.ok (inputs.map (BHJM_tet1 tri field in_out))
    else
      Except.error ("output_field_type must be one of (B, H, M, J), got "
        ++ field)

/-- Post-call state of the vertices array owned by the caller: `check_chirality`
mutates `points` in place (`points[dets_neg, 2:, :] = ...`), and
`BHJM_magnet_tetrahedron` reaches it only on the B/H paths — after the
validation gate and after the early M/J returns.  (The observers and
polarization arrays are never written: `BHJM = polarization.astype(float)`
copies, and all other writes target fresh arrays.) -/
noncomputable def tet_vertices_after (field : String)
    (inputs : List TetInstance) : List Tet :=
  match check_field_input field with
  | Except.error _ => inputs.map (fun i => i.vert)
  | Except.ok _ =>
    if field = "J" ∨ field = "M" then inputs.map (fun i => i.vert)
    else inputs.map (fun i => check_chirality i.vert)

/-- Mapped componentwise division by MU0 on a kernel result, to state the
H = B/mu0 scaling invariant. -/
noncomputable def exDivMU0 (r : Except String (List Vec3)) :
    Except String (List Vec3) :=
  r.map (List.map (fun v => vdiv v MU0))

/-- Componentwise division by MU0 on a single-instance kernel result. -/
noncomputable def exDivMU0v (r : Except String Vec3) : Except String Vec3 :=
  r.map (fun v => vdiv v MU0)

/-- A kernel call that did not raise. -/
def exceptOk {α : Type} (r : Except String α) : Prop :=
  ∃ v, r = Except.ok v

/-- Genuinely (strictly) interior observer: nondegenerate tetrahedron and
all barycentric coordinates strictly positive with sum strictly below 1. -/
noncomputable def strictlyInside (obs : Vec3) (t : Tet) : Prop :=
  tetDet t ≠ 0 ∧
    0 < (newp obs t).1 ∧ 0 < (newp obs t).2.1 ∧ 0 < (newp obs t).2.2 ∧
    (newp obs t).1 + (newp obs t).2.1 + (newp obs t).2.2 < 1

/-- Genuinely (strictly) exterior observer: nondegenerate tetrahedron and
some barycentric coordinate negative or coordinate sum above 1 (the point is
not in the closed tetrahedron). -/
noncomputable def strictlyOutside (obs : Vec3) (t : Tet) : Prop :=
  tetDet t ≠ 0 ∧
    ((newp obs t).1 < 0 ∨ (newp obs t).2.1 < 0 ∨ (newp obs t).2.2 < 0 ∨
      1 < (newp obs t).1 + (newp obs t).2.1 + (newp obs t).2.2)

/-- The unit tetrahedron, a concrete right-handed witness geometry. -/
def unitTet : Tet := ((0, 0, 0), (1, 0, 0), (0, 1, 0), (0, 0, 1))

/-- The zero triangle kernel: the concrete `BHJM_triangle` instantiation
used by witnesses; it trivially satisfies the H = B/mu0 scaling contract the
spec asserts for the real triangle kernel. -/
def tri0 : TriKernel := fun _ _ _ _ => (0 : Vec3)

/-- The zero elliptic evaluator, concrete `cel_iter` instantiation for
witnesses (no witness exercises the general-case branch values). -/
def cel0 : CelIter := fun _ _ _ _ _ _ _ => 0

/-- Swap of vertices 2 and 3 on one batch instance. -/
def swapInst (i : TetInstance) : TetInstance := ⟨i.obs, swap23 i.vert, i.pol⟩

/-- Concrete instance with a strictly interior observer of the unit
tetrahedron. -/
noncomputable def sampleInside : TetInstance :=
  ⟨(1 / 8, 1 / 8, 1 / 8), unitTet, (0, 0, 1)⟩

/-- Concrete instance with a strictly exterior observer of the unit
tetrahedron. -/
def sampleOutside : TetInstance := ⟨(2, 2, 2), unitTet, (0, 0, 1)⟩

/-- Concrete instance whose observer is vertex 0 of the unit tetrahedron,
a boundary point. -/
def sampleBoundary : TetInstance := ⟨(0, 0, 0), unitTet, (2, 3, 4)⟩

/-- Concrete left-handed instance: vertices 2 and 3 of the unit tetrahedron
exchanged, so the signed volume is negative. -/
def sampleLeft : TetInstance := ⟨(2, 2, 2), swap23 unitTet, (0, 0, 1)⟩

/-!  Helper lemmas (shared; none is a claim theorem). -/

/-- Transposing the last two columns negates the determinant. -/
lemma det3_comm23 (a b c : Vec3) : det3 a c b = -det3 a b c := by
  simp only [det3]; ring

/-- Swapping vertices 2 and 3 negates the signed volume. -/
lemma tetDet_swap23 (t : Tet) : tetDet (swap23 t) = -tetDet t := by
  unfold tetDet swap23
  exact det3_comm23 _ _ _

/-- The vertex-2/3 swap is an involution. -/
lemma swap23_swap23 (t : Tet) : swap23 (swap23 t) = t := rfl

/-- Barycentric coordinates of the swapped tetrahedron are the permuted
barycentric coordinates (true without a nondegeneracy assumption because
Lean division by zero yields zero on both sides). -/
lemma newp_swap23 (obs : Vec3) (t : Tet) :
    newp obs (swap23 t) =
      ((newp obs t).1, (newp obs t).2.2, (newp obs t).2.1) := by
  simp only [newp, swap23, Prod.ext_iff]
  refine ⟨?_, ?_, ?_⟩
  · rw [det3_comm23 (obs - t.1) (t.2.2.1 - t.1) (t.2.2.2 - t.1),
      det3_comm23 (t.2.1 - t.1) (t.2.2.1 - t.1) (t.2.2.2 - t.1),
      neg_div_neg_eq]
  · rw [det3_comm23 (t.2.1 - t.1) (t.2.2.1 - t.1) (obs - t.1),
      det3_comm23 (t.2.1 - t.1) (t.2.2.1 - t.1) (t.2.2.2 - t.1),
      neg_div_neg_eq]
  · rw [det3_comm23 (t.2.1 - t.1) (obs - t.1) (t.2.2.2 - t.1),
      det3_comm23 (t.2.1 - t.1) (t.2.2.1 - t.1) (t.2.2.2 - t.1),
      neg_div_neg_eq]

/-- The inside test does not see the vertex-2/3 swap. -/
lemma point_inside_swap23 (obs : Vec3) (t : Tet) (s : String) :
    point_inside obs (swap23 t) s = point_inside obs t s := by
  unfold point_inside
  by_cases h1 : s = "inside"
  · rw [if_pos h1, if_pos h1]
  rw [if_neg h1, if_neg h1]
  by_cases h2 : s = "outside"
  · rw [if_pos h2, if_pos h2]
  rw [if_neg h2, if_neg h2]
  simp only [newp_swap23]
  refine if_congr ?_ rfl rfl
  constructor <;> rintro ⟨c1, c2, c3, c4, c5, c6, c7⟩ <;>
    exact ⟨c1, c3, c2, c4, c6, c5, by linarith⟩

/-- The inside test is blind to the chirality normalization. -/
lemma point_inside_chirality (obs : Vec3) (t : Tet) (s : String) :
    point_inside obs (check_chirality t) s = point_inside obs t s := by
  unfold check_chirality
  by_cases h : tetDet t < 0
  · rw [if_pos h, point_inside_swap23]
  · rw [if_neg h]

/-- On a tetrahedron of nonzero signed volume, chirality normalization of
the swapped and of the original vertices agree. -/
lemma check_chirality_swap23 (t : Tet) (h : tetDet t ≠ 0) :
    check_chirality (swap23 t) = check_chirality t := by
  unfold check_chirality
  rcases lt_or_gt_of_ne h with hlt | hgt
  · have h2 : ¬tetDet (swap23 t) < 0 := by rw [tetDet_swap23]; linarith
    rw [if_neg h2, if_pos hlt]
  · have h2 : tetDet (swap23 t) < 0 := by rw [tetDet_swap23]; linarith
    have h3 : ¬tetDet t < 0 := by linarith
    rw [if_pos h2, if_neg h3, swap23_swap23]

/-- The validation gate accepts a valid selector. -/
lemma check_field_input_ok {f : String} (h : f ∈ validFields) :
    check_field_input f = Except.ok () := by
  unfold check_field_input
  rw [if_pos h]

/-- The validation gate rejects an invalid selector with the descriptive
message. -/
lemma check_field_input_err {f : String} (h : f ∉ validFields) :
    check_field_input f = Except.error (check_error_msg f) := by
  unfold check_field_input
  rw [if_neg h]

/-- Reduction of the tetrahedron kernel on a valid field selector. -/
lemma BHJM_valid {f : String}
    (h : f = "J" ∨ f = "M" ∨ f = "H" ∨ f = "B") (tri : TriKernel)
    (inputs : List TetInstance) (in_out : String) :
    BHJM_magnet_tetrahedron tri f inputs in_out =
      Except.ok (inputs.map (BHJM_tet1 tri f in_out)) := by
  have hm : f ∈ validFields := by rcases h with h | h | h | h <;> subst h <;> decide
  unfold BHJM_magnet_tetrahedron
  rw [check_field_input_ok hm]
  have hg : f = "J" ∨ f = "M" ∨ f = "H" ∨ f = "B" := h
  simp only [hg, if_true, or_true, true_or]

/-- Per-instance body at field J. -/
lemma BHJM_tet1_J (tri : TriKernel) (in_out : String) (i : TetInstance) :
    BHJM_tet1 tri "J" in_out i =
      (if point_inside i.obs i.vert in_out then i.pol else (0 : Vec3)) := by
  unfold BHJM_tet1
  rw [if_pos rfl]

/-- Per-instance body at field M. -/
lemma BHJM_tet1_M (tri : TriKernel) (in_out : String) (i : TetInstance) :
    BHJM_tet1 tri "M" in_out i =
      vdiv (if point_inside i.obs i.vert in_out then i.pol else (0 : Vec3))
        MU0 := by
  unfold BHJM_tet1
  rw [if_neg (by decide : ¬("M" : String) = "J"), if_pos rfl]

/-- Per-instance body at field H. -/
lemma BHJM_tet1_H (tri : TriKernel) (in_out : String) (i : TetInstance) :
    BHJM_tet1 tri "H" in_out i =
      tetTriSum tri "H" i.obs (check_chirality i.vert) i.pol := by
  unfold BHJM_tet1
  rw [if_neg (by decide : ¬("H" : String) = "J"),
    if_neg (by decide : ¬("H" : String) = "M"),
    if_neg (fun hc => (by decide : ¬("H" : String) = "B") hc.1)]

/-- Per-instance body at field B. -/
lemma BHJM_tet1_B (tri : TriKernel) (in_out : String) (i : TetInstance) :
    BHJM_tet1 tri "B" in_out i =
      (if point_inside i.obs (check_chirality i.vert) in_out then
        tetTriSum tri "B" i.obs (check_chirality i.vert) i.pol + i.pol
      else tetTriSum tri "B" i.obs (check_chirality i.vert) i.pol) := by
  unfold BHJM_tet1
  rw [if_neg (by decide : ¬("B" : String) = "J"),
    if_neg (by decide : ¬("B" : String) = "M")]
  exact if_congr (by simp) rfl rfl

/-- Any policy string other than `inside`/`outside` takes the computed
branch, i.e. behaves exactly like `auto`. -/
lemma point_inside_policy {s : String} (h1 : s ≠ "inside")
    (h2 : s ≠ "outside") (obs : Vec3) (t : Tet) :
    point_inside obs t s = point_inside obs t "auto" := by
  unfold point_inside
  rw [if_neg h1, if_neg h2, if_neg (by decide : ¬("auto" : String) = "inside"),
    if_neg (by decide : ¬("auto" : String) = "outside")]

/-- The forced `inside` policy returns the constant true. -/
lemma point_inside_inside (obs : Vec3) (t : Tet) :
    point_inside obs t "inside" = true := by
  unfold point_inside
  rw [if_pos rfl]

/-- The forced `outside` policy returns the constant false. -/
lemma point_inside_outside (obs : Vec3) (t : Tet) :
    point_inside obs t "outside" = false := by
  unfold point_inside
  rw [if_neg (by decide : ¬("outside" : String) = "inside"), if_pos rfl]

/-- A strictly interior observer passes the computed inside test. -/
lemma strictlyInside_auto {obs : Vec3} {t : Tet} (h : strictlyInside obs t) :
    point_inside obs t "auto" = true := by
  obtain ⟨-, h1, h2, h3, hs⟩ := h
  unfold point_inside
  rw [if_neg (by decide : ¬("auto" : String) = "inside"),
    if_neg (by decide : ¬("auto" : String) = "outside"),
    if_pos ⟨le_of_lt h1, le_of_lt h2, le_of_lt h3, by linarith, by linarith,
      by linarith, le_of_lt hs⟩]

/-- A strictly exterior observer fails the computed inside test. -/
lemma strictlyOutside_auto {obs : Vec3} {t : Tet} (h : strictlyOutside obs t) :
    point_inside obs t "auto" = false := by
  obtain ⟨-, hout⟩ := h
  unfold point_inside
  rw [if_neg (by decide : ¬("auto" : String) = "inside"),
    if_neg (by decide : ¬("auto" : String) = "outside"), if_neg ?_]
  rintro ⟨c1, c2, c3, -, -, -, c7⟩
  rcases hout with h | h | h | h <;> linarith

/-- Per-instance chirality invariance of the tetrahedron body, for every
field type and policy, on a tetrahedron of nonzero signed volume. -/
lemma BHJM_tet1_swap (tri : TriKernel) (f in_out : String) (i : TetInstance)
    (h : tetDet i.vert ≠ 0) :
    BHJM_tet1 tri f in_out (swapInst i) = BHJM_tet1 tri f in_out i := by
  unfold BHJM_tet1 swapInst
  simp only [point_inside_swap23, check_chirality_swap23 i.vert h]

/-- Per-instance policy transparency of the tetrahedron body. -/
lemma BHJM_tet1_policy {s : String} (h1 : s ≠ "inside") (h2 : s ≠ "outside")
    (tri : TriKernel) (f : String) (i : TetInstance) :
    BHJM_tet1 tri f s i = BHJM_tet1 tri f "auto" i := by
  unfold BHJM_tet1
  simp only [point_inside_policy h1 h2]

/-- Per-instance agreement of the forced `inside` policy with `auto` on a
strictly interior observer. -/
lemma BHJM_tet1_forced_inside (tri : TriKernel) (f : String)
    (i : TetInstance) (h : strictlyInside i.obs i.vert) :
    BHJM_tet1 tri f "inside" i = BHJM_tet1 tri f "auto" i := by
  unfold BHJM_tet1
  simp only [point_inside_chirality, point_inside_inside,
    strictlyInside_auto h]

/-- Per-instance agreement of the forced `outside` policy with `auto` on a
strictly exterior observer. -/
lemma BHJM_tet1_forced_outside (tri : TriKernel) (f : String)
    (i : TetInstance) (h : strictlyOutside i.obs i.vert) :
    BHJM_tet1 tri f "outside" i = BHJM_tet1 tri f "auto" i := by
  unfold BHJM_tet1
  simp only [point_inside_chirality, point_inside_outside,
    strictlyOutside_auto h]

/-- Rejection form of the tetrahedron kernel on an invalid selector. -/
lemma BHJM_err {f : String} (h : f ∉ validFields) (tri : TriKernel)
    (inputs : List TetInstance) (in_out : String) :
    BHJM_magnet_tetrahedron tri f inputs in_out =
      Except.error (check_error_msg f) := by
  unfold BHJM_magnet_tetrahedron
  rw [check_field_input_err h]

/-- A valid selector is one of the four literals. -/
lemma validFields_cases {f : String} (h : f ∈ validFields) :
    f = "J" ∨ f = "M" ∨ f = "H" ∨ f = "B" := by
  have h2 : f = "B" ∨ f = "H" ∨ f = "M" ∨ f = "J" := by
    simpa [validFields] using h
  tauto

/-- Signed volume of the unit tetrahedron. -/
lemma tetDet_unitTet : tetDet unitTet = 1 := by
  norm_num [tetDet, det3, unitTet, Prod.mk_sub_mk]

/-- The barycentric solve on the unit tetrahedron is the identity. -/
lemma newp_unitTet (obs : Vec3) : newp obs unitTet = obs := by
  obtain ⟨x, y, z⟩ := obs
  norm_num [newp, det3, unitTet, Prod.mk_sub_mk]

/-- The unit tetrahedron is already right-handed. -/
lemma check_chirality_unitTet : check_chirality unitTet = unitTet := by
  unfold check_chirality
  rw [if_neg (by rw [tetDet_unitTet]; norm_num)]

/-- The sample interior observer is strictly inside the unit tetrahedron. -/
lemma strictlyInside_sample :
    strictlyInside ((1 / 8 : ℝ), (1 / 8 : ℝ), (1 / 8 : ℝ)) unitTet := by
  unfold strictlyInside
  rw [newp_unitTet, tetDet_unitTet]
  norm_num

/-- The sample exterior observer is strictly outside the unit
tetrahedron. -/
lemma strictlyOutside_sample :
    strictlyOutside ((2 : ℝ), (2 : ℝ), (2 : ℝ)) unitTet := by
  unfold strictlyOutside
  rw [newp_unitTet, tetDet_unitTet]
  norm_num

/-- Claim C4: for every batch, field type and in_out policy, swapping
vertices 2 and 3 of the input tetrahedra (left-handed versus right-handed
ordering, so each signed volume is nonzero) yields an identical field
result. -/
theorem claim_C4 (tri : TriKernel) (field in_out : String)
    (inputs : List TetInstance)
    (hdet : ∀ i ∈ inputs, tetDet i.vert ≠ 0) :
    BHJM_magnet_tetrahedron tri field (inputs.map swapInst) in_out =
      BHJM_magnet_tetrahedron tri field inputs in_out := by
  by_cases hf : field ∈ validFields
  · rw [BHJM_valid (validFields_cases hf), BHJM_valid (validFields_cases hf),
      List.map_map]
    exact congrArg Except.ok (List.map_congr_left fun i hi =>
      BHJM_tet1_swap tri field in_out i (hdet i hi))
  · rw [BHJM_err hf, BHJM_err hf]

/-- Witness for C4 at a concrete one-instance batch. -/
theorem claim_C4_witness :
    (∀ i ∈ [sampleOutside], tetDet i.vert ≠ 0) ∧
      BHJM_magnet_tetrahedron tri0 "B" ([sampleOutside].map swapInst) "auto" =
        BHJM_magnet_tetrahedron tri0 "B" [sampleOutside] "auto" := by
  have h : ∀ i ∈ [sampleOutside], tetDet i.vert ≠ 0 := by
    intro i hi
    rw [List.mem_singleton] at hi
    subst hi
    show tetDet sampleOutside.vert ≠ 0
    have hv : sampleOutside.vert = unitTet := rfl
    rw [hv, tetDet_unitTet]
    norm_num
  exact ⟨h, claim_C4 tri0 "B" "auto" [sampleOutside] h⟩

/-- Claim C5: for field J the tetrahedron kernel returns, per instance, the
polarization for observers passing the inside test and zero otherwise; for
field M the same divided by MU0; in both cases the result is independent of
the triangle kernel, whose invocation the J/M paths never reach. -/
theorem claim_C5 (tri tri2 : TriKernel) (inputs : List TetInstance)
    (in_out : String) :
    BHJM_magnet_tetrahedron tri "J" inputs in_out =
        Except.ok (inputs.map fun i =>
          if point_inside i.obs i.vert in_out then i.pol else (0 : Vec3)) ∧
      BHJM_magnet_tetrahedron tri "M" inputs in_out =
        Except.ok (inputs.map fun i =>
          vdiv (if point_inside i.obs i.vert in_out then i.pol
            else (0 : Vec3)) MU0) ∧
      BHJM_magnet_tetrahedron tri "J" inputs in_out =
        BHJM_magnet_tetrahedron tri2 "J" inputs in_out ∧
      BHJM_magnet_tetrahedron tri "M" inputs in_out =
        BHJM_magnet_tetrahedron tri2 "M" inputs in_out := by
  refine ⟨?_, ?_, ?_, ?_⟩
  · rw [BHJM_valid (Or.inl rfl)]
    exact congrArg Except.ok
      (List.map_congr_left fun i _ => BHJM_tet1_J tri in_out i)
  · rw [BHJM_valid (Or.inr (Or.inl rfl))]
    exact congrArg Except.ok
      (List.map_congr_left fun i _ => BHJM_tet1_M tri in_out i)
  · rw [BHJM_valid (Or.inl rfl), BHJM_valid (Or.inl rfl)]
    exact congrArg Except.ok (List.map_congr_left fun i _ =>
      (BHJM_tet1_J tri in_out i).trans (BHJM_tet1_J tri2 in_out i).symm)
  · rw [BHJM_valid (Or.inr (Or.inl rfl)), BHJM_valid (Or.inr (Or.inl rfl))]
    exact congrArg Except.ok (List.map_congr_left fun i _ =>
      (BHJM_tet1_M tri in_out i).trans (BHJM_tet1_M tri2 in_out i).symm)

/-- Claim C6: when all observers of a batch are genuinely (strictly)
interior, the forced inside policy agrees with auto; when all are genuinely
exterior, the forced outside policy agrees with auto — for every field
type. -/
theorem claim_C6 (tri : TriKernel) (field : String)
    (inputs : List TetInstance) :
    ((∀ i ∈ inputs, strictlyInside i.obs i.vert) →
        BHJM_magnet_tetrahedron tri field inputs "inside" =
          BHJM_magnet_tetrahedron tri field inputs "auto") ∧
      ((∀ i ∈ inputs, strictlyOutside i.obs i.vert) →
        BHJM_magnet_tetrahedron tri field inputs "outside" =
          BHJM_magnet_tetrahedron tri field inputs "auto") := by
  constructor <;> intro hall <;> by_cases hf : field ∈ validFields
  · rw [BHJM_valid (validFields_cases hf), BHJM_valid (validFields_cases hf)]
    exact congrArg Except.ok (List.map_congr_left fun i hi =>
      BHJM_tet1_forced_inside tri field i (hall i hi))
  · rw [BHJM_err hf, BHJM_err hf]
  · rw [BHJM_valid (validFields_cases hf), BHJM_valid (validFields_cases hf)]
    exact congrArg Except.ok (List.map_congr_left fun i hi =>
      BHJM_tet1_forced_outside tri field i (hall i hi))
  · rw [BHJM_err hf, BHJM_err hf]

/-- Witness for C6 at concrete one-instance batches (interior case and
exterior case). -/
theorem claim_C6_witness :
    ((∀ i ∈ [sampleInside], strictlyInside i.obs i.vert) ∧
        BHJM_magnet_tetrahedron tri0 "B" [sampleInside] "inside" =
          BHJM_magnet_tetrahedron tri0 "B" [sampleInside] "auto") ∧
      ((∀ i ∈ [sampleOutside], strictlyOutside i.obs i.vert) ∧
        BHJM_magnet_tetrahedron tri0 "B" [sampleOutside] "outside" =
          BHJM_magnet_tetrahedron tri0 "B" [sampleOutside] "auto") := by
  have hin : ∀ i ∈ [sampleInside], strictlyInside i.obs i.vert := by
    intro i hi
    rw [List.mem_singleton] at hi
    subst hi
    exact strictlyInside_sample
  have hout : ∀ i ∈ [sampleOutside], strictlyOutside i.obs i.vert := by
    intro i hi
    rw [List.mem_singleton] at hi
    subst hi
    exact strictlyOutside_sample
  exact ⟨⟨hin, (claim_C6 tri0 "B" [sampleInside]).1 hin⟩,
    ⟨hout, (claim_C6 tri0 "B" [sampleOutside]).2 hout⟩⟩

/-- Claim C7: any in_out string other than the recognized inside/outside
policies (e.g. "maybe") raises no error and behaves exactly like auto, for
every field type and batch — there is no guard on the policy string. -/
theorem claim_C7 (tri : TriKernel) (field : String)
    (inputs : List TetInstance) (s : String) (h1 : s ≠ "inside")
    (h2 : s ≠ "outside") :
    BHJM_magnet_tetrahedron tri field inputs s =
        BHJM_magnet_tetrahedron tri field inputs "auto" ∧
      (field ∈ validFields →
        exceptOk (BHJM_magnet_tetrahedron tri field inputs s)) := by
  constructor
  · by_cases hf : field ∈ validFields
    · rw [BHJM_valid (validFields_cases hf), BHJM_valid (validFields_cases hf)]
      exact congrArg Except.ok (List.map_congr_left fun i _ =>
        BHJM_tet1_policy h1 h2 tri field i)
    · rw [BHJM_err hf, BHJM_err hf]
  · intro hf
    exact ⟨_, BHJM_valid (validFields_cases hf) tri inputs s⟩

/-- Witness for C7 at the concrete policy string "maybe". -/
theorem claim_C7_witness :
    (("maybe" : String) ≠ "inside" ∧ ("maybe" : String) ≠ "outside") ∧
      BHJM_magnet_tetrahedron tri0 "J" [sampleOutside] "maybe" =
        BHJM_magnet_tetrahedron tri0 "J" [sampleOutside] "auto" :=
  ⟨⟨by decide, by decide⟩,
    (claim_C7 tri0 "J" [sampleOutside] "maybe" (by decide) (by decide)).1⟩

/-- Claim C10: under the auto policy an observer on the boundary of a
nondegenerate tetrahedron (all barycentric coordinates in [0,1], the sum at
most 1, and some coordinate zero or the sum equal to 1) is classified as
inside; hence field J returns the full polarization there and field B adds
the polarization to the surface-sheet sum. -/
theorem claim_C10 (tri : TriKernel) (i : TetInstance)
    (hdet : tetDet i.vert ≠ 0)
    (h1 : 0 ≤ (newp i.obs i.vert).1) (h2 : 0 ≤ (newp i.obs i.vert).2.1)
    (h3 : 0 ≤ (newp i.obs i.vert).2.2)
    (h4 : (newp i.obs i.vert).1 ≤ 1) (h5 : (newp i.obs i.vert).2.1 ≤ 1)
    (h6 : (newp i.obs i.vert).2.2 ≤ 1)
    (hsum : (newp i.obs i.vert).1 + (newp i.obs i.vert).2.1 +
      (newp i.obs i.vert).2.2 ≤ 1)
    (hbd : (newp i.obs i.vert).1 = 0 ∨ (newp i.obs i.vert).2.1 = 0 ∨
      (newp i.obs i.vert).2.2 = 0 ∨
      (newp i.obs i.vert).1 + (newp i.obs i.vert).2.1 +
        (newp i.obs i.vert).2.2 = 1) :
    point_inside i.obs i.vert "auto" = true ∧
      BHJM_magnet_tetrahedron tri "J" [i] "auto" = Except.ok [i.pol] ∧
      BHJM_magnet_tetrahedron tri "B" [i] "auto" =
        Except.ok [tetTriSum tri "B" i.obs (check_chirality i.vert) i.pol
          + i.pol] := by
  have hin : point_inside i.obs i.vert "auto" = true := by
    unfold point_inside
    rw [if_neg (by decide : ¬("auto" : String) = "inside"),
      if_neg (by decide : ¬("auto" : String) = "outside"),
      if_pos ⟨h1, h2, h3, h4, h5, h6, hsum⟩]
  refine ⟨hin, ?_, ?_⟩
  · rw [BHJM_valid (Or.inl rfl)]
    simp only [List.map_cons, List.map_nil, BHJM_tet1_J, hin, if_true]
  · rw [BHJM_valid (Or.inr (Or.inr (Or.inr rfl)))]
    simp only [List.map_cons, List.map_nil, BHJM_tet1_B,
      point_inside_chirality, hin, if_true]

/-- Witness for C10 at vertex 0 of the unit tetrahedron. -/
theorem claim_C10_witness :
    (tetDet sampleBoundary.vert ≠ 0 ∧
        newp sampleBoundary.obs sampleBoundary.vert = ((0 : ℝ), (0 : ℝ), (0 : ℝ))) ∧
      point_inside sampleBoundary.obs sampleBoundary.vert "auto" = true ∧
      BHJM_magnet_tetrahedron tri0 "J" [sampleBoundary] "auto" =
        Except.ok [sampleBoundary.pol] := by
  have hv : sampleBoundary.vert = unitTet := rfl
  have hb : newp sampleBoundary.obs sampleBoundary.vert =
      ((0 : ℝ), (0 : ℝ), (0 : ℝ)) := by
    rw [hv]
    exact newp_unitTet _
  have hd : tetDet sampleBoundary.vert ≠ 0 := by
    rw [hv, tetDet_unitTet]; norm_num
  have hmain := claim_C10 tri0 sampleBoundary hd
    (by rw [hb]) (by rw [hb]) (by rw [hb])
    (by rw [hb]; norm_num) (by rw [hb]; norm_num) (by rw [hb]; norm_num)
    (by rw [hb]; norm_num) (Or.inl (by rw [hb]))
  exact ⟨⟨hd, hb⟩, hmain.1, hmain.2.1⟩

/-- The vacuum permeability of the embedding is positive. -/
lemma MU0_pos : 0 < MU0 := by
  unfold MU0
  have hpi := Real.pi_pos
  nlinarith

/-- The vacuum permeability of the embedding is nonzero. -/
lemma MU0_ne_zero : MU0 ≠ 0 := ne_of_gt MU0_pos

/-- Division of the zero vector by a scalar. -/
lemma vdiv_zero (c : ℝ) : vdiv (0 : Vec3) c = 0 := by
  simp [vdiv]

/-- Componentwise division distributes over vector addition. -/
lemma vdiv_add (a b : Vec3) (c : ℝ) :
    vdiv (a + b) c = vdiv a c + vdiv b c := by
  simp [vdiv, Prod.ext_iff, add_div]

/-- The selector "B" is not a Python substring of "MJ". -/
lemma pyInStr_B : pyInStr "B" "MJ" = false := by decide

/-- The selector "H" is not a Python substring of "MJ". -/
lemma pyInStr_H : pyInStr "H" "MJ" = false := by decide

/-- The selector "M" is a Python substring of "MJ". -/
lemma pyInStr_M : pyInStr "M" "MJ" = true := by decide

/-- The selector "J" is a Python substring of "MJ". -/
lemma pyInStr_J : pyInStr "J" "MJ" = true := by decide

/-- Rejection form of the circle kernel on an invalid selector. -/
lemma circle_err {f : String} (h : f ∉ validFields) (cel : CelIter)
    (obs : Vec3) (d I : ℝ) :
    current_circle_field cel f obs d I =
      Except.error (check_error_msg f) := by
  unfold current_circle_field
  rw [check_field_input_err h]

/-- Short-circuit of the circle kernel on the M/J selectors. -/
lemma circle_MJ {f : String} (hv : f ∈ validFields)
    (h : pyInStr f "MJ" = true) (cel : CelIter) (obs : Vec3) (d I : ℝ) :
    current_circle_field cel f obs d I = Except.ok ((0, 0, 0) : Vec3) := by
  unfold current_circle_field
  rw [check_field_input_ok hv]
  simp only [h, if_true]

/-- Value form of the circle kernel at selector B. -/
lemma circle_B_eq (cel : CelIter) (obs : Vec3) (d I : ℝ) :
    current_circle_field cel "B" obs d I =
      Except.ok
        ((circle_Br_tot cel |d / 2| (cylr obs) obs.2.2 *
            Real.cos (atan2 obs.2.1 obs.1)) * I * 1e-6,
          (circle_Br_tot cel |d / 2| (cylr obs) obs.2.2 *
            Real.sin (atan2 obs.2.1 obs.1)) * I * 1e-6,
          circle_Bz_tot cel |d / 2| (cylr obs) obs.2.2 * I * 1e-6) := by
  unfold current_circle_field cyl_field_to_cart
  rw [check_field_input_ok (by decide : ("B" : String) ∈ validFields)]
  simp only [pyInStr_B, Bool.false_eq_true, if_false, if_pos rfl, if_true]

/-- The circle kernel at selector H is the selector-B value divided by MU0
(the final `B_cart / MU0` of the source). -/
lemma circle_H_div_B (cel : CelIter) (obs : Vec3) (d I : ℝ) :
    current_circle_field cel "H" obs d I =
      exDivMU0v (current_circle_field cel "B" obs d I) := by
  unfold current_circle_field cyl_field_to_cart exDivMU0v
  rw [check_field_input_ok (by decide : ("H" : String) ∈ validFields),
    check_field_input_ok (by decide : ("B" : String) ∈ validFields)]
  simp only [pyInStr_B, pyInStr_H, Bool.false_eq_true, if_false, if_pos rfl,
    if_true, if_neg (by decide : ¬("H" : String) = "B"), Except.map]

/-- The circle kernel never raises on a valid selector. -/
lemma circle_ok {f : String} (h : f ∈ validFields) (cel : CelIter)
    (obs : Vec3) (d I : ℝ) :
    exceptOk (current_circle_field cel f obs d I) := by
  rcases validFields_cases h with h1 | h1 | h1 | h1 <;> subst h1
  · exact ⟨_, circle_MJ h pyInStr_J cel obs d I⟩
  · exact ⟨_, circle_MJ h pyInStr_M cel obs d I⟩
  · exact ⟨_, circle_H_div_B cel obs d I |>.trans
      (congrArg exDivMU0v (circle_B_eq cel obs d I))⟩
  · exact ⟨_, circle_B_eq cel obs d I⟩

/-- The vertices array after a B-path call: chirality-normalized. -/
lemma tet_vertices_after_B (inputs : List TetInstance) :
    tet_vertices_after "B" inputs =
      inputs.map fun i => check_chirality i.vert := by
  unfold tet_vertices_after
  rw [check_field_input_ok (by decide : ("B" : String) ∈ validFields)]
  simp only [if_neg (by decide : ¬(("B" : String) = "J" ∨ ("B" : String) = "M"))]

/-- The vertices array after an H-path call: chirality-normalized. -/
lemma tet_vertices_after_H (inputs : List TetInstance) :
    tet_vertices_after "H" inputs =
      inputs.map fun i => check_chirality i.vert := by
  unfold tet_vertices_after
  rw [check_field_input_ok (by decide : ("H" : String) ∈ validFields)]
  simp only [if_neg (by decide : ¬(("H" : String) = "J" ∨ ("H" : String) = "M"))]

/-- The vertices array after a J-path call: untouched. -/
lemma tet_vertices_after_J (inputs : List TetInstance) :
    tet_vertices_after "J" inputs = inputs.map fun i => i.vert := by
  unfold tet_vertices_after
  rw [check_field_input_ok (by decide : ("J" : String) ∈ validFields)]
  simp

/-- The vertices array after an M-path call: untouched. -/
lemma tet_vertices_after_M (inputs : List TetInstance) :
    tet_vertices_after "M" inputs = inputs.map fun i => i.vert := by
  unfold tet_vertices_after
  rw [check_field_input_ok (by decide : ("M" : String) ∈ validFields)]
  simp

/-- Chirality normalization actively swaps the left-handed sample. -/
lemma check_chirality_sampleLeft :
    check_chirality (swap23 unitTet) = unitTet := by
  unfold check_chirality
  rw [if_pos (by rw [tetDet_swap23, tetDet_unitTet]; norm_num), swap23_swap23]

/-- Claim C8: the tetrahedron kernel may modify the vertices array of the
caller in place — on the B and H paths the vertices of each instance are replaced by
their chirality normalization (which swaps vertices 2 and 3 exactly where
the signed volume is negative, as the concrete left-handed sample shows),
while the M/J paths and the validation-error path leave the array untouched.
In the source the observers and polarization arrays are never written (the
`astype` copy receives all masked writes), and `current_circle_field` writes
only freshly allocated arrays — the embedding therefore records the
vertices array as the only mutable call boundary, in
`tet_vertices_after`. -/
theorem claim_C8 (inputs : List TetInstance) :
    (tet_vertices_after "B" inputs =
        inputs.map (fun i => check_chirality i.vert) ∧
      tet_vertices_after "H" inputs =
        inputs.map (fun i => check_chirality i.vert)) ∧
      (tet_vertices_after "J" inputs = inputs.map (fun i => i.vert) ∧
        tet_vertices_after "M" inputs = inputs.map (fun i => i.vert)) ∧
      (∀ f, f ∉ validFields →
        tet_vertices_after f inputs = inputs.map (fun i => i.vert)) ∧
      tet_vertices_after "B" [sampleLeft] ≠ [sampleLeft.vert] := by
  refine ⟨⟨tet_vertices_after_B inputs, tet_vertices_after_H inputs⟩,
    ⟨tet_vertices_after_J inputs, tet_vertices_after_M inputs⟩, ?_, ?_⟩
  · intro f hf
    unfold tet_vertices_after
    rw [check_field_input_err hf]
  · rw [tet_vertices_after_B]
    have h1 : sampleLeft.vert = swap23 unitTet := rfl
    simp only [List.map_cons, List.map_nil, h1, check_chirality_sampleLeft]
    intro hEq
    have h2 : unitTet = swap23 unitTet := by injection hEq
    have h3 : (1 : ℝ) = 0 := congrArg (fun t => t.2.2.1.2.1) h2
    norm_num at h3

/-- Witness for C8 (its invalid-selector conjunct) at the selector "X" and
a concrete batch. -/
theorem claim_C8_witness :
    ("X" : String) ∉ validFields ∧
      tet_vertices_after "X" [sampleLeft] = [sampleLeft].map (fun i => i.vert) :=
  ⟨by decide, (claim_C8 [sampleLeft]).2.2.1 "X" (by decide)⟩

/-- Claim C9: an invalid field-type selector makes both kernels raise the
shared descriptive validation error — the same error value for every
geometry/excitation input, so before any numeric work and never silently
coerced — and a valid selector never raises it. -/
theorem claim_C9 (field : String) (cel : CelIter) (tri : TriKernel)
    (observer : Vec3) (diameter current : ℝ) (inputs : List TetInstance)
    (in_out : String) :
    (field ∉ validFields →
        current_circle_field cel field observer diameter current =
            Except.error (check_error_msg field) ∧
          BHJM_magnet_tetrahedron tri field inputs in_out =
            Except.error (check_error_msg field)) ∧
      (field ∈ validFields →
        exceptOk (current_circle_field cel field observer diameter current) ∧
          exceptOk (BHJM_magnet_tetrahedron tri field inputs in_out)) := by
  constructor
  · intro hf
    exact ⟨circle_err hf cel observer diameter current,
      BHJM_err hf tri inputs in_out⟩
  · intro hf
    exact ⟨circle_ok hf cel observer diameter current,
      ⟨_, BHJM_valid (validFields_cases hf) tri inputs in_out⟩⟩

/-- Witness for C9 at the invalid selector "X" and the valid selector
"B". -/
theorem claim_C9_witness :
    (("X" : String) ∉ validFields ∧
        current_circle_field cel0 "X" (0, 0, 0) 1 1 =
          Except.error (check_error_msg "X")) ∧
      (("B" : String) ∈ validFields ∧
        exceptOk (current_circle_field cel0 "B" (0, 0, 0) 1 1)) := by
  have h1 : ("X" : String) ∉ validFields := by decide
  have h2 : ("B" : String) ∈ validFields := by decide
  exact ⟨⟨h1, ((claim_C9 "X" cel0 tri0 (0, 0, 0) 1 1 [] "auto").1 h1).1⟩,
    ⟨h2, ((claim_C9 "B" cel0 tri0 (0, 0, 0) 1 1 [] "auto").2 h2).1⟩⟩

/-- Cylindrical radius of an on-axis observer. -/
lemma cylr_axis (z : ℝ) : cylr ((0 : ℝ), (0 : ℝ), z) = 0 := by
  norm_num [cylr]

/-- On the axis the radial accumulator is zero (mask5 excludes mask3). -/
lemma circle_Br_tot_axis (cel : CelIter) (r0 z : ℝ) :
    circle_Br_tot cel r0 0 z = 0 := by
  unfold circle_Br_tot
  rw [if_neg (fun hm => hm (Or.inr (Or.inr rfl)))]

/-- On the axis with nonzero loop radius the axial accumulator takes the
closed on-axis form (the mask4 write). -/
lemma circle_Bz_tot_axis (cel : CelIter) (r0 z : ℝ) (h : r0 ≠ 0) :
    circle_Bz_tot cel r0 0 z = circle_Bz_onaxis r0 z := by
  unfold circle_Bz_tot
  rw [if_pos ⟨rfl, h⟩]

/-- Degenerate instances (zero radius or the singular circle) zero the
radial accumulator. -/
lemma circle_Br_tot_deg (cel : CelIter) {r0 r z : ℝ}
    (h : r0 = 0 ∨ (|r - r0| < 1e-15 * r0 ∧ z = 0)) :
    circle_Br_tot cel r0 r z = 0 := by
  unfold circle_Br_tot
  rw [if_neg (fun hm =>
    hm (h.elim Or.inl fun h2 => Or.inr (Or.inl h2)))]

/-- Degenerate instances (zero radius or the singular circle at positive
radius) zero the axial accumulator. -/
lemma circle_Bz_tot_deg (cel : CelIter) {r0 r z : ℝ}
    (h : r0 = 0 ∨ (0 < r0 ∧ |r - r0| < 1e-15 * r0 ∧ z = 0)) :
    circle_Bz_tot cel r0 r z = 0 := by
  unfold circle_Bz_tot
  rw [if_neg ?m4, if_neg ?m5]
  case m4 =>
    rintro ⟨h3, h1⟩
    rcases h with h0 | ⟨hr0, hsing, -⟩
    · exact h1 h0
    · rw [h3, zero_sub, abs_neg, abs_of_pos hr0] at hsing
      have hc : (1e-15 : ℝ) < 1 := by norm_num
      nlinarith
  case m5 =>
    intro hm
    exact hm (h.elim Or.inl fun h2 => Or.inr (Or.inl h2.2))

/-- Evaluation of the 3/2 power at 1/4. -/
lemma rpow_quarter : ((1 / 4 : ℝ)) ^ ((3 : ℝ) / 2) = 1 / 8 := by
  have h : (1 / 4 : ℝ) = (1 / 2 : ℝ) ^ (2 : ℕ) := by norm_num
  rw [h, ← Real.rpow_natCast ((1 / 2 : ℝ)) 2,
    ← Real.rpow_mul (by norm_num : (0 : ℝ) ≤ 1 / 2)]
  rw [show ((2 : ℕ) : ℝ) * ((3 : ℝ) / 2) = ((3 : ℕ) : ℝ) by norm_num,
    Real.rpow_natCast]
  norm_num

/-- Value of the H field of the diameter-1 loop with unit current at the
origin: the premultiplied source constant divided through by the vacuum
permeability, 5*0.6283185307179587/pi — one ulp away from 1, not 1. -/
lemma circle_H_origin (cel : CelIter) :
    current_circle_field cel "H" ((0 : ℝ), (0 : ℝ), (0 : ℝ)) 1 1 =
      Except.ok (0, 0, 5 * 0.6283185307179587 / Real.pi) := by
  rw [circle_H_div_B, circle_B_eq, cylr_axis, circle_Br_tot_axis,
    circle_Bz_tot_axis cel _ _ (by norm_num : |(1 : ℝ) / 2| ≠ 0)]
  unfold exDivMU0v vdiv circle_Bz_onaxis MU0
  simp only [Except.map]
  have hA : ((0 : ℝ) ^ 2 + |(1 : ℝ) / 2| ^ 2) ^ ((3 : ℝ) / 2) = 1 / 8 := by
    rw [show ((0 : ℝ) ^ 2 + |(1 : ℝ) / 2| ^ 2) = 1 / 4 by
        rw [show |(1 : ℝ) / 2| = 1 / 2 by norm_num]; norm_num,
      rpow_quarter]
  rw [hA]
  have hpi := Real.pi_ne_zero
  norm_num
  field_simp
  ring

/-- Claim C2 (amended): every on-axis observer (0,0,z) of a loop of
positive diameter gets Br = 0 and
Bz = 0.6283185307179587*r0^2/(z^2+r0^2)^(3/2)*I*1e-6, the premultiplied
source constant embedded exactly; since that constant lies one ulp above
the double nearest mu0/2/1e-6 = pi/5, Bz agrees with
mu0/2*I*r0^2/(z^2+r0^2)^(3/2) only to one ulp, not exactly, and the
concrete scenario returns exactly (0, 0, 5*0.6283185307179587/pi) — close
to but not exactly (0,0,1) A/m (see the counterexample). -/
theorem claim_C2 (cel : CelIter) (z d I : ℝ) (hd : 0 < d) :
    current_circle_field cel "B" ((0 : ℝ), (0 : ℝ), z) d I =
        Except.ok (0, 0, 0.6283185307179587 * (d / 2) ^ 2 /
          (z ^ 2 + (d / 2) ^ 2) ^ ((3 : ℝ) / 2) * I * 1e-6) ∧
      current_circle_field cel "H" ((0 : ℝ), (0 : ℝ), (0 : ℝ)) 1 1 =
        Except.ok (0, 0, 5 * 0.6283185307179587 / Real.pi) := by
  refine ⟨?_, circle_H_origin cel⟩
  have habs : |d / 2| = d / 2 := abs_of_pos (by positivity)
  rw [circle_B_eq, cylr_axis, circle_Br_tot_axis,
    circle_Bz_tot_axis cel _ _ (by rw [habs]; positivity), habs]
  unfold circle_Bz_onaxis
  norm_num

/-- Counterexample to claim C2 as stated: the concrete scenario does not
return exactly (0,0,1) A/m — the premultiplied source constant
0.6283185307179587 is not pi/5 (it is one ulp above the double nearest
pi/5), and 5*0.6283185307179587/pi = 1 would make pi rational. -/
theorem claim_C2_counterexample :
    current_circle_field cel0 "H" ((0 : ℝ), (0 : ℝ), (0 : ℝ)) 1 1 ≠
      Except.ok ((0 : ℝ), (0 : ℝ), (1 : ℝ)) := by
  rw [circle_H_origin cel0]
  intro hEq
  have h1 : (5 * 0.6283185307179587 / Real.pi : ℝ) = 1 := by
    have h2 := congrArg (fun r : Except String Vec3 =>
      (r.toOption.getD ((0, 0, 0) : Vec3)).2.2) hEq
    simpa using h2
  have h3 : Real.pi = 5 * (0.6283185307179587 : ℝ) := by
    have hpi := Real.pi_ne_zero
    field_simp at h1
    linarith
  have h4 : Real.pi = ((31415926535897935 / 10 ^ 16 : ℚ) : ℝ) := by
    rw [h3]
    push_cast
    norm_num
  exact irrational_pi.ne_rat _ h4

/-- Witness for C2 (amended) at diameter 2, current 3, observer (0,0,1). -/
theorem claim_C2_witness :
    (0 : ℝ) < 2 ∧
      current_circle_field cel0 "B" ((0 : ℝ), (0 : ℝ), (1 : ℝ)) 2 3 =
        Except.ok (0, 0, 0.6283185307179587 * ((2 : ℝ) / 2) ^ 2 /
          ((1 : ℝ) ^ 2 + ((2 : ℝ) / 2) ^ 2) ^ ((3 : ℝ) / 2) * 3 * 1e-6) :=
  ⟨by norm_num, (claim_C2 cel0 1 2 3 (by norm_num)).1⟩

/-- Claim C3: degenerate loop instances — diameter 0 with any observer, or
an observer exactly on the loop circle of a positive-radius loop — produce
the exact zero vector, for every valid field type (the embedding is over
the reals, where no NaN/Inf exists; zero is the value of every branch). -/
theorem claim_C3 (cel : CelIter) (field : String) (hf : field ∈ validFields)
    (obs : Vec3) (d I : ℝ)
    (hdeg : d = 0 ∨
      (0 < |d / 2| ∧ abs (cylr obs - |d / 2|) < 1e-15 * |d / 2| ∧
        obs.2.2 = 0)) :
    current_circle_field cel field obs d I =
      Except.ok ((0, 0, 0) : Vec3) := by
  have hr : circle_Br_tot cel |d / 2| (cylr obs) obs.2.2 = 0 := by
    refine circle_Br_tot_deg cel (hdeg.elim (fun h0 => Or.inl ?_)
      (fun h2 => Or.inr ⟨h2.2.1, h2.2.2⟩))
    rw [h0]; norm_num
  have hz : circle_Bz_tot cel |d / 2| (cylr obs) obs.2.2 = 0 := by
    refine circle_Bz_tot_deg cel (hdeg.elim (fun h0 => Or.inl ?_)
      (fun h2 => Or.inr ⟨h2.1, h2.2.1, h2.2.2⟩))
    rw [h0]; norm_num
  rcases validFields_cases hf with h1 | h1 | h1 | h1 <;> subst h1
  · exact circle_MJ hf pyInStr_J cel obs d I
  · exact circle_MJ hf pyInStr_M cel obs d I
  · rw [circle_H_div_B, circle_B_eq, hr, hz]
    unfold exDivMU0v vdiv
    simp [Except.map]
  · rw [circle_B_eq, hr, hz]
    simp

/-- Witness for C3 at a zero-diameter loop. -/
theorem claim_C3_witness :
    (("B" : String) ∈ validFields ∧ ((0 : ℝ) = 0 ∨
        (0 < |(0 : ℝ) / 2| ∧
          abs (cylr ((0 : ℝ), (0 : ℝ), (5 : ℝ)) - |(0 : ℝ) / 2|) <
            1e-15 * |(0 : ℝ) / 2| ∧
          (((0 : ℝ), (0 : ℝ), (5 : ℝ)) : Vec3).2.2 = 0))) ∧
      current_circle_field cel0 "B" ((0 : ℝ), (0 : ℝ), (5 : ℝ)) 0 3 =
        Except.ok ((0, 0, 0) : Vec3) :=
  ⟨⟨by decide, Or.inl rfl⟩,
    claim_C3 cel0 "B" (by decide) ((0 : ℝ), (0 : ℝ), (5 : ℝ)) 0 3
      (Or.inl rfl)⟩

/-- The zero triangle kernel contributes a zero face sum. -/
lemma tetTriSum_tri0 (f : String) (obs : Vec3) (t : Tet) (p : Vec3) :
    tetTriSum tri0 f obs t p = 0 := by
  simp [tetTriSum, tri0]

/-- If the triangle collaborator satisfies the H = B/mu0 scaling, so does
the four-face sum. -/
lemma tetTriSum_scaling {tri : TriKernel}
    (htri : ∀ obs tv p, tri "H" obs tv p = vdiv (tri "B" obs tv p) MU0)
    (obs : Vec3) (t : Tet) (p : Vec3) :
    tetTriSum tri "H" obs t p = vdiv (tetTriSum tri "B" obs t p) MU0 := by
  unfold tetTriSum
  rw [htri, htri, htri, htri, ← vdiv_add, ← vdiv_add, ← vdiv_add]

/-- Claim C1 (amended): H = B/mu0 holds for the circle kernel at every
input, and for the tetrahedron kernel — given that the triangle
collaborator satisfies the same scaling — at every batch whose observers
are all classified outside; at interior observers the B path adds the
polarization (B = mu0 H + J inside the body), so the relation as stated by
the claim fails there (see the counterexample). -/
theorem claim_C1 (cel : CelIter) (tri : TriKernel)
    (htri : ∀ obs tv p, tri "H" obs tv p = vdiv (tri "B" obs tv p) MU0) :
    (∀ (obs : Vec3) (d I : ℝ),
        current_circle_field cel "H" obs d I =
          exDivMU0v (current_circle_field cel "B" obs d I)) ∧
      (∀ (inputs : List TetInstance) (in_out : String),
        (∀ i ∈ inputs,
          point_inside i.obs (check_chirality i.vert) in_out = false) →
        BHJM_magnet_tetrahedron tri "H" inputs in_out =
          exDivMU0 (BHJM_magnet_tetrahedron tri "B" inputs in_out)) := by
  constructor
  · exact fun obs d I => circle_H_div_B cel obs d I
  · intro inputs in_out hout
    rw [BHJM_valid (Or.inr (Or.inr (Or.inl rfl))),
      BHJM_valid (Or.inr (Or.inr (Or.inr rfl)))]
    unfold exDivMU0
    simp only [Except.map, List.map_map]
    refine congrArg Except.ok (List.map_congr_left fun i hi => ?_)
    show BHJM_tet1 tri "H" in_out i = vdiv (BHJM_tet1 tri "B" in_out i) MU0
    rw [BHJM_tet1_H, BHJM_tet1_B, if_neg (by rw [hout i hi]; simp),
      tetTriSum_scaling htri]

/-- Witness for C1 at the zero triangle kernel (which satisfies the scaling
contract) and a batch whose observer is outside. -/
theorem claim_C1_witness :
    (∀ obs tv p, tri0 "H" obs tv p = vdiv (tri0 "B" obs tv p) MU0) ∧
      (∀ i ∈ [sampleOutside],
        point_inside i.obs (check_chirality i.vert) "auto" = false) ∧
      current_circle_field cel0 "H" ((0 : ℝ), (0 : ℝ), (0 : ℝ)) 1 1 =
        exDivMU0v (current_circle_field cel0 "B" ((0 : ℝ), (0 : ℝ), (0 : ℝ)) 1 1) ∧
      BHJM_magnet_tetrahedron tri0 "H" [sampleOutside] "auto" =
        exDivMU0 (BHJM_magnet_tetrahedron tri0 "B" [sampleOutside] "auto") := by
  have htri : ∀ obs tv p, tri0 "H" obs tv p = vdiv (tri0 "B" obs tv p) MU0 := by
    intro obs tv p
    rw [show tri0 "B" obs tv p = (0 : Vec3) from rfl, vdiv_zero]
    rfl
  have hout : ∀ i ∈ [sampleOutside],
      point_inside i.obs (check_chirality i.vert) "auto" = false := by
    intro i hi
    rw [List.mem_singleton] at hi
    subst hi
    rw [show sampleOutside.vert = unitTet from rfl, point_inside_chirality]
    exact strictlyOutside_auto strictlyOutside_sample
  exact ⟨htri, hout, (claim_C1 cel0 tri0 htri).1 ((0 : ℝ), (0 : ℝ), (0 : ℝ)) 1 1,
    (claim_C1 cel0 tri0 htri).2 [sampleOutside] "auto" hout⟩

/-- Counterexample to claim C1 as stated: at a strictly interior observer
with nonzero polarization the tetrahedron kernel violates H = B/mu0 — here
with the zero triangle collaborator, which itself satisfies the scaling
contract, so the violation is exactly the interior polarization term
B = mu0 H + J. -/
theorem claim_C1_counterexample :
    BHJM_magnet_tetrahedron tri0 "H" [sampleInside] "auto" ≠
      exDivMU0 (BHJM_magnet_tetrahedron tri0 "B" [sampleInside] "auto") := by
  have hpi : point_inside sampleInside.obs
      (check_chirality sampleInside.vert) "auto" = true := by
    rw [show sampleInside.vert = unitTet from rfl, point_inside_chirality]
    exact strictlyInside_auto strictlyInside_sample
  rw [BHJM_valid (Or.inr (Or.inr (Or.inl rfl))),
    BHJM_valid (Or.inr (Or.inr (Or.inr rfl)))]
  unfold exDivMU0
  simp only [Except.map, List.map_cons, List.map_nil, BHJM_tet1_H,
    BHJM_tet1_B, hpi, if_true, tetTriSum_tri0, zero_add]
  intro hEq
  have h2 : (0 : Vec3) = vdiv sampleInside.pol MU0 := by
    injection hEq with h3
    injection h3
  have h3 : (0 : ℝ) = 1 / MU0 :=
    congrArg (fun v : Vec3 => v.2.2) h2
  rw [eq_comm, div_eq_zero_iff] at h3
  rcases h3 with h | h
  · norm_num at h
  · exact MU0_ne_zero h

end Magpylib
